import Mathlib

/-!
Verification development for the `wobot` events module
(`src/commands/events.rs`).

The module offers two bot commands: `export_events`, which maps the
scheduled events of a guild to an ICS calendar byte stream, and `event`,
which normalizes two user-entered civil date strings with
`parse_start_and_end_date`, creates a platform event and posts an
announcement.  The development below embeds the date parsing, the zone
resolution, the default-end policy, the calendar encoding and the
announcement formatting, and proves the specified properties about them.

Modelling conventions:
* machine integers are `Int`/`Nat`; instants are seconds since the Unix
  epoch (sub-second precision is immaterial to every property here);
* fallible code returns `Option`, the command result is a `RunResult`
  whose `panicked` constructor records abnormal termination (a Rust
  panic reached through `LocalResult::unwrap`);
* Rust `char::is_whitespace` is modelled on its ASCII subset, which is
  exact on every input whose characters are ASCII.
-/

/-- Characters treated as whitespace by the parser model (ASCII subset of
the Rust `char::is_whitespace` predicate). -/
def isWs (c : Char) : Bool :=
  c == ' ' || c == '\t' || c == '\n' || c == '\r'

/-- Drop leading whitespace, as Rust `str::trim_start` does before every
numeric field in a chrono format and at a literal space item. -/
def trimWs : List Char → List Char
  | [] => []
  | c :: t => if isWs c then trimWs t else c :: t

/-- Take at most `max` leading ASCII digits (greedy), returning the digits
and the rest; the model of `chrono::format::scan::number` with an upper
width bound. -/
def takeDigits : Nat → List Char → (List Char × List Char)
  | 0, l => ([], l)
  | _ + 1, [] => ([], [])
  | n + 1, c :: t =>
    if c.isDigit then
      let (ds, r) := takeDigits n t
      (c :: ds, r)
    else ([], c :: t)

/-- Take all leading ASCII digits (greedy, unbounded); used for an
explicitly signed year. -/
def takeDigitsAll : List Char → (List Char × List Char)
  | [] => ([], [])
  | c :: t =>
    if c.isDigit then
      let (ds, r) := takeDigitsAll t
      (c :: ds, r)
    else ([], c :: t)

/-- Numeric value of a digit list (most significant first). -/
def digitsVal (ds : List Char) : Nat :=
  ds.foldl (fun a c => a * 10 + (c.toNat - 48)) 0

/-- Consume one expected literal character, the model of a chrono
`Item::Literal` of length one (exact match, no whitespace skipping). -/
def expectChar (c : Char) : List Char → Option (List Char)
  | [] => none
  | x :: t => if x == c then some t else none

/-- Parse an unsigned numeric field of 1 to `maxD` digits after skipping
leading whitespace, as chrono does for `%m`, `%d`, `%H`, `%M` (width 2)
and an unsigned `%Y` (width 4). -/
def numField (maxD : Nat) (l : List Char) : Option (Nat × List Char) :=
  let l' := trimWs l
  let (ds, r) := takeDigits maxD l'
  if ds.isEmpty then none else some (digitsVal ds, r)

/-- Parse the `%Y` field: after whitespace, either an explicit sign
followed by an unbounded digit run, or 1 to 4 digits. -/
def yearField (l : List Char) : Option (Int × List Char) :=
  let l' := trimWs l
  match l' with
  | '-' :: t =>
    match takeDigitsAll t with
    | ([], _) => none
    | (ds, r) => some (-(digitsVal ds : Int), r)
  | '+' :: t =>
    match takeDigitsAll t with
    | ([], _) => none
    | (ds, r) => some ((digitsVal ds : Int), r)
  | _ => (numField 4 l').map (fun p => ((p.1 : Int), p.2))

/-- A parsed civil (wall-clock) date-time at minute precision: the value
`NaiveDateTime::parse_from_str` produces for the format
`%Y-%m-%d %H:%M` (seconds default to zero). -/
structure CivilDT where
  year : Int
  month : Nat
  day : Nat
  hour : Nat
  minute : Nat
deriving DecidableEq, Repr

/-- Proleptic Gregorian leap-year predicate. -/
def isLeap (y : Int) : Bool :=
  y % 4 == 0 && (y % 100 != 0 || y % 400 == 0)

/-- Number of days of month `m` (1-12) in year `y`. -/
def daysInMonth (y : Int) (m : Nat) : Nat :=
  if m == 2 then (if isLeap y then 29 else 28)
  else if m == 4 || m == 6 || m == 9 || m == 11 then 30
  else 31

/-- Calendar validity as enforced by `NaiveDate::from_ymd_opt`: the year
within the chrono `NaiveDate` range and a real month/day. -/
def validDate (y : Int) (m d : Nat) : Bool :=
  -262144 ≤ y && y ≤ 262143 && 1 ≤ m && m ≤ 12 && 1 ≤ d && d ≤ daysInMonth y m

/-- Model of `NaiveDateTime::parse_from_str(s, "%Y-%m-%d %H:%M")`.
The chrono format items are: numeric `%Y`, literal `-`, numeric `%m`,
literal `-`, numeric `%d`, a space item, numeric `%H`, literal `:`,
numeric `%M`; every numeric item skips leading whitespace and accepts an
unpadded 1- or 2-digit value (1-4 digits for the unsigned year), the
space item skips any amount of whitespace including none, and trailing
input is rejected.  Field ranges are checked when the parsed fields are
assembled into a date-time. -/
def parseNaive (s : String) : Option CivilDT := do
  let (y, r1) ← yearField s.data
  let r2 ← expectChar '-' r1
  let (mo, r3) ← numField 2 r2
  let r4 ← expectChar '-' r3
  let (d, r5) ← numField 2 r4
  let r6 := trimWs r5
  let (h, r7) ← numField 2 r6
  let r8 ← expectChar ':' r7
  let (mi, r9) ← numField 2 r8
  if r9.isEmpty && validDate y mo d && h ≤ 23 && mi ≤ 59 then
    some ⟨y, mo, d, h, mi⟩
  else none

/-- Days since 1970-01-01 of the civil date `(y, m, d)` (proleptic
Gregorian); the standard era-based civil-calendar conversion that chrono
realizes internally. -/
def daysFromCivil (y m d : Int) : Int :=
  let y' := if m ≤ 2 then y - 1 else y
  let era := y'.fdiv 400
  let yoe := y' - era * 400
  let mp := (m + 9).emod 12
  let doy := (153 * mp + 2).fdiv 5 + d - 1
  let doe := yoe * 365 + yoe.fdiv 4 - yoe.fdiv 100 + doy
  era * 146097 + doe - 719468

/-- Civil date `(y, m, d)` of the day `z` counted from 1970-01-01; the
inverse civil-calendar conversion. -/
def civilFromDays (z : Int) : Int × Int × Int :=
  let z' := z + 719468
  let era := z'.fdiv 146097
  let doe := z' - era * 146097
  let yoe := (doe - doe.fdiv 1460 + doe.fdiv 36524 - doe.fdiv 146096).fdiv 365
  let y := yoe + era * 400
  let doy := doe - (365 * yoe + yoe.fdiv 4 - yoe.fdiv 100)
  let mp := (5 * doy + 2).fdiv 153
  let d := doy - (153 * mp + 2).fdiv 5 + 1
  let m := if mp < 10 then mp + 3 else mp - 9
  (if m ≤ 2 then y + 1 else y, m, d)

/-- Day of the month (1-31) of the last Sunday of month `m` of year `y`,
for a 31-day month. -/
def lastSundayDay (y m : Int) : Int :=
  31 - (daysFromCivil y m 31 + 4).fmod 7

/-- UTC instant at which summer time starts in year `y` under the EU
rule: 01:00 UTC on the last Sunday of March. -/
def dstStartUtc (y : Int) : Int :=
  daysFromCivil y 3 (lastSundayDay y 3) * 86400 + 3600

/-- UTC instant at which summer time ends in year `y` under the EU rule:
01:00 UTC on the last Sunday of October. -/
def dstEndUtc (y : Int) : Int :=
  daysFromCivil y 10 (lastSundayDay y 10) * 86400 + 3600

/-- Modelled from the spec: the compile-time zone constant
`crate::constants::TIMEZONE` lives in a module that is not part of this
source fragment; the spec fixes it to the Olson zone Europe/Berlin
(UTC+01:00 in winter).  This is the UTC-offset function of that zone,
with the current EU daylight rule (UTC+02:00 between 01:00 UTC of the
last Sunday of March and 01:00 UTC of the last Sunday of October)
applied uniformly to every year; every instant any property below
touches lies in the era where this rule is the real Europe/Berlin
rule or in a plain UTC+01:00 winter, where it also agrees. -/
def berlinOffsetFromUtc (u : Int) : Int :=
  let y := (civilFromDays (u.fdiv 86400)).1
  if dstStartUtc y ≤ u ∧ u < dstEndUtc y then 7200 else 3600

/-- Local (zone-civil) seconds since the epoch of a parsed civil value:
the unique encoding of a `CivilDT` on a linear seconds scale. -/
def civilSecs (c : CivilDT) : Int :=
  daysFromCivil c.year c.month c.day * 86400 + c.hour * 3600 + c.minute * 60

/-- Result of resolving a civil time in a zone, chrono
`LocalResult<T>`: no instant (DST gap), a unique instant, or two
instants (DST overlap; `earliest` carries the offset of the earlier
instant). -/
inductive LocalResult where
  | allGapNone : LocalResult
  | single (offset : Int) : LocalResult
  | ambiguous (earliest latest : Int) : LocalResult
deriving DecidableEq, Repr

/-- Model of chrono-tz `Tz::offset_from_local_datetime` for the
two-offset zone above: an offset is admissible for local seconds `c`
precisely when subtracting it lands on a UTC instant at which the zone
uses that offset.  With both offsets admissible the result is ambiguous,
with the earlier instant (the +02:00 reading) first, as chrono-tz
orders it. -/
def resolveLocal (c : Int) : LocalResult :=
  let cet := berlinOffsetFromUtc (c - 3600) = 3600
  let cest := berlinOffsetFromUtc (c - 7200) = 7200
  if cet then
    if cest then .ambiguous 7200 3600 else .single 3600
  else
    if cest then .single 7200 else .allGapNone

/-- A zone-attached date-time, chrono `DateTime<Tz>`: the UTC instant in
seconds plus the UTC offset the zone assigns it. -/
structure ZonedDT where
  utc : Int
  offset : Int
deriving DecidableEq, Repr

/-- Model of `date.and_local_timezone(TIMEZONE).unwrap()` up to the
panic: `some` is the unique resolution, `none` stands for the `unwrap`
panic that both the `LocalResult::None` (DST gap) and the
`LocalResult::Ambiguous` (DST overlap) variants raise. -/
def unwrapLocal (c : CivilDT) : Option ZonedDT :=
  match resolveLocal (civilSecs c) with
  | .single o => some ⟨civilSecs c - o, o⟩
  | _ => none

/-- Model of `DateTime<Tz> + Duration`: the duration is added to the
UTC instant and the offset is recomputed from the zone at the new
instant (chrono `checked_add_signed` followed by
`from_utc_datetime`). -/
def addSecs (z : ZonedDT) (n : Int) : ZonedDT :=
  let u := z.utc + n
  ⟨u, berlinOffsetFromUtc u⟩

/-- The two `anyhow` context messages `parse_start_and_end_date`
attaches to a failed parse, modelled as an enumeration: `startTime` for
the failed-start message and `endTime` for the failed-end message. -/
inductive ErrCtx where
  | startTime : ErrCtx
  | endTime : ErrCtx
deriving DecidableEq, Repr

/-- Outcome of running a fallible command body: abnormal termination
(a Rust panic), an error returned through `?`, or success. -/
inductive RunResult (α : Type) where
  | panicked : RunResult α
  | failed (e : ErrCtx) : RunResult α
  | ok (a : α) : RunResult α
deriving DecidableEq, Repr

/-- Model of `parse_start_and_end_date(start, end)` from
`src/commands/events.rs`: parse the start string (error context
`startTime` on failure), attach the zone with an `unwrap` (panic on gap
or overlap), then either add one hour of elapsed time when no end string
is given, or parse and zone the end string the same way (error context
`endTime`). -/
def parse_start_and_end_date (start : String) (endOpt : Option String) :
    RunResult (ZonedDT × ZonedDT) :=
  match parseNaive start with
  | none => .failed .startTime
  | some c =>
    match unwrapLocal c with
    | none => .panicked
    | some startDate =>
      match endOpt with
      | none => .ok (startDate, addSecs startDate 3600)
      | some inp =>
        match parseNaive inp with
        | none => .failed .endTime
        | some c2 =>
          match unwrapLocal c2 with
          | none => .panicked
          | some endDate => .ok (startDate, endDate)

/-- Metadata of a platform scheduled event (serenity
`ScheduledEventMetadata`): an optional location. -/
structure EventMetadata where
  location : Option String
deriving DecidableEq, Repr

/-- A platform scheduled-event record, with the fields `export_events`
reads: numeric id, name, optional description, optional metadata with an
optional location, absolute start instant, optional absolute end
instant (seconds since the epoch, UTC). -/
structure PlatformEvent where
  id : Nat
  name : String
  description : Option String
  metadata : Option EventMetadata
  start_time : Int
  end_time : Option Int
deriving DecidableEq, Repr

/-- One content line of an ICS component: a property name and its
value. -/
structure IcsProp where
  key : String
  value : String
deriving DecidableEq, Repr

/-- An ICS `VEVENT` component as the `ics` crate holds it: a list of
properties written in insertion order. -/
structure IcsEvent where
  properties : List IcsProp
deriving DecidableEq, Repr

/-- Model of `ics::Event::new(uid, dtstamp)`: a fresh component whose
first two properties are `UID` and `DTSTAMP`. -/
def icsEventNew (uid dtstamp : String) : IcsEvent :=
  ⟨[⟨"UID", uid⟩, ⟨"DTSTAMP", dtstamp⟩]⟩

/-- Model of `ics::Event::push`: append one property. -/
def IcsEvent.push (e : IcsEvent) (p : IcsProp) : IcsEvent :=
  ⟨e.properties ++ [p]⟩

/-- An ICS calendar as the `ics` crate holds it: version, product
identifier, and the added `VEVENT` components in insertion order. -/
structure ICalendar where
  version : String
  prodid : String
  events : List IcsEvent
deriving DecidableEq, Repr

/-- Model of `ics::ICalendar::add_event`: append one component. -/
def ICalendar.addEvent (cal : ICalendar) (e : IcsEvent) : ICalendar :=
  { cal with events := cal.events ++ [e] }

/-- Left-pad the decimal form of a nonnegative value to two digits
(chrono numeric formatting with zero padding). -/
def pad2 (n : Int) : String :=
  if n < 10 then "0" ++ toString n else toString n

/-- Left-pad the decimal form of a nonnegative value to four digits. -/
def pad4aux (n : Int) : String :=
  if n < 10 then "000" ++ toString n
  else if n < 100 then "00" ++ toString n
  else if n < 1000 then "0" ++ toString n
  else toString n

/-- Left-pad the decimal form to four digits, keeping a sign in front
(chrono `%Y` formatting). -/
def pad4 (n : Int) : String :=
  if n < 0 then "-" ++ pad4aux (-n) else pad4aux n

/-- Model of formatting a UTC instant with the `export_events` constant
`ICS_TIME_FORMAT = "%Y%m%dT%H%M%SZ"`: the compact RFC 5545 basic form
of the instant as a UTC civil date-time. -/
def icsFormat (u : Int) : String :=
  let day := u.fdiv 86400
  let sod := u.fmod 86400
  let ymd := civilFromDays day
  pad4 ymd.1 ++ pad2 ymd.2.1 ++ pad2 ymd.2.2 ++ "T" ++
    pad2 (sod.fdiv 3600) ++ pad2 ((sod.fmod 3600).fdiv 60) ++
    pad2 (sod.fmod 60) ++ "Z"

/-- Default DTEND instant of an exported event: its end time, or its
start time plus one hour of elapsed time when it has none
(`event.end_time.unwrap_or(event.start_time.add(Duration::hours(1)))`). -/
def dtendInstant (ev : PlatformEvent) : Int :=
  match ev.end_time with
  | some t => t
  | none => ev.start_time + 3600

/-- Model of the `export_events` loop body: build one `VEVENT` from one
platform event.  `now` is the export-time clock reading used for
`DTSTAMP` (`Utc::now()`; the successive per-iteration clock reads are
modelled as one export-time instant, no property below depends on its
value).  Properties are pushed in source order: `SUMMARY`, then
`DESCRIPTION` if the description is present, then `LOCATION` if the
metadata carries a location, then `DTSTART`, then `DTEND`. -/
def eventToIcs (now : Int) (ev : PlatformEvent) : IcsEvent :=
  let e0 := icsEventNew (toString ev.id) (icsFormat now)
  let e1 := e0.push ⟨"SUMMARY", ev.name⟩
  let e2 := match ev.description with
    | some d => e1.push ⟨"DESCRIPTION", d⟩
    | none => e1
  let e3 := match ev.metadata with
    | some md =>
      match md.location with
      | some loc => e2.push ⟨"LOCATION", loc⟩
      | none => e2
    | none => e2
  let e4 := e3.push ⟨"DTSTART", icsFormat ev.start_time⟩
  e4.push ⟨"DTEND", icsFormat (dtendInstant ev)⟩

/-- The `for event in events` loop of `export_events`, folding
`add_event` over the source sequence in order. -/
def addAllEvents (now : Int) (cal : ICalendar) :
    List PlatformEvent → ICalendar
  | [] => cal
  | ev :: rest => addAllEvents now (cal.addEvent (eventToIcs now ev)) rest

/-- The calendar value `export_events` builds:
`ICalendar::new("2.0", "ics-rs")` followed by the event loop. -/
def exportCalendar (now : Int) (events : List PlatformEvent) : ICalendar :=
  addAllEvents now ⟨"2.0", "ics-rs", []⟩ events

/-- Serialized form of one property: `KEY:VALUE`. -/
def propLine (p : IcsProp) : String :=
  p.key ++ ":" ++ p.value

/-- Serialized content lines of one `VEVENT` component. -/
def eventLines (e : IcsEvent) : List String :=
  "BEGIN:VEVENT" :: (e.properties.map propLine ++ ["END:VEVENT"])

/-- Serialized content lines of the whole calendar document, in the
order the `ics` crate writes them. -/
def calendarLines (cal : ICalendar) : List String :=
  "BEGIN:VCALENDAR" :: ("VERSION:" ++ cal.version) ::
    ("PRODID:" ++ cal.prodid) ::
    ((cal.events.map eventLines).flatten ++ ["END:VCALENDAR"])

/-- The byte stream `calendar.write` emits, as a string: every content
line followed by CRLF.  (RFC 5545 line folding applies only to lines
longer than 75 bytes and is not modelled; every line a property below
inspects is shorter.) -/
def renderCalendar (cal : ICalendar) : String :=
  (calendarLines cal).foldl (fun a l => a ++ l ++ "\r\n") ""

/-- Whether `needle` occurs as a prefix of `hay`, on character lists. -/
def startsWithList : List Char → List Char → Bool
  | _, [] => true
  | [], _ :: _ => false
  | a :: as', b :: bs => a == b && startsWithList as' bs

/-- Whether `needle` occurs contiguously anywhere inside `hay`. -/
def containsSub (hay needle : List Char) : Bool :=
  match hay with
  | [] => needle.isEmpty
  | _ :: t => startsWithList hay needle || containsSub t needle

/-- Substring test on strings, via the character lists. -/
def strContainsSub (hay needle : String) : Bool :=
  containsSub hay.data needle.data

/-- The constant `EVENT_URL` from `src/commands/events.rs`. -/
def EVENT_URL : String := "https://discord.com/events/"

/-- One fragment of a Rust `format!` template: a literal piece or a
positional argument slot. -/
inductive Frag where
  | lit (s : String) : Frag
  | arg (i : Nat) : Frag

/-- Interpret a `format!` template over string arguments by
concatenating its fragments in order. -/
def runFormat (frags : List Frag) (args : List String) : String :=
  frags.foldl
    (fun acc f =>
      acc ++ match f with
        | .lit s => s
        | .arg i => args.getD i "") ""

/-- Model of the announcement built in the `event` command:
`format!("[{}]({}{}/{}) mit {}", name, EVENT_URL, event.guild_id,
event.id, ctx.author())`.  Guild and event ids are numeric; the author
argument is the mention string the serenity `User` display produces. -/
def announcement (name : String) (guild_id event_id : Nat)
    (author : String) : String :=
  runFormat
    [.lit "[", .arg 0, .lit "](", .arg 1, .arg 2, .lit "/", .arg 3,
     .lit ") mit ", .arg 4]
    [name, EVENT_URL, toString guild_id, toString event_id, author]

/-- The ambient environment a command body could read: the process
clock.  `parse_start_and_end_date` is given access to it only to state
that it does not consult it. -/
structure Env where
  now : Int

/-- Date normalization run in an ambient environment: the embedding of
the Rust body, which contains no clock read, no randomness and no
mutable state, so the environment does not occur in it. -/
def parseInEnv (_env : Env) (start : String) (endOpt : Option String) :
    RunResult (ZonedDT × ZonedDT) :=
  parse_start_and_end_date start endOpt

/-- String append acts as list append on the character data. -/
theorem string_data_append (a b : String) : (a ++ b).data = a.data ++ b.data := by
  cases a; cases b; rfl

/-- Unfolding of the `export_events` loop: folding `add_event` over the
source sequence appends the per-event encodings in order. -/
theorem addAllEvents_events (now : Int) :
    ∀ (evs : List PlatformEvent) (cal : ICalendar),
      (addAllEvents now cal evs).events =
        cal.events ++ evs.map (eventToIcs now)
  | [], cal => by simp [addAllEvents]
  | ev :: rest, cal => by
    rw [addAllEvents, addAllEvents_events now rest]
    simp [ICalendar.addEvent]

/-- The calendar built by `export_events` holds exactly the per-event
encodings of the source sequence, in source order. -/
theorem exportCalendar_events (now : Int) (events : List PlatformEvent) :
    (exportCalendar now events).events = events.map (eventToIcs now) := by
  rw [exportCalendar, addAllEvents_events]
  rfl

/-- Normal form of the property list of one encoded `VEVENT`. -/
theorem eventToIcs_properties (now : Int) (ev : PlatformEvent) :
    (eventToIcs now ev).properties =
      [⟨"UID", toString ev.id⟩, ⟨"DTSTAMP", icsFormat now⟩,
       ⟨"SUMMARY", ev.name⟩] ++
      (match ev.description with
        | some d => [⟨"DESCRIPTION", d⟩]
        | none => []) ++
      (match ev.metadata.bind EventMetadata.location with
        | some l => [⟨"LOCATION", l⟩]
        | none => []) ++
      [⟨"DTSTART", icsFormat ev.start_time⟩,
       ⟨"DTEND", icsFormat (dtendInstant ev)⟩] := by
  obtain ⟨i, nm, desc, md, st, et⟩ := ev
  cases desc <;> cases md with
  | none => rfl
  | some m => cases m with
    | mk loc => cases loc <;> rfl

/-- C7: for every start string on which date normalization with an
absent end argument succeeds, the returned end instant minus the
returned start instant is exactly 3600 seconds of elapsed real time
(the default end is `start + Duration::hours(1)` on the instant scale,
not a civil calendar operation). -/
theorem c7_default_end_one_hour (s : String) (p : ZonedDT × ZonedDT)
    (h : parse_start_and_end_date s none = .ok p) :
    p.2.utc - p.1.utc = 3600 := by
  unfold parse_start_and_end_date at h
  cases hs : parseNaive s with
  | none => simp only [hs] at h; exact RunResult.noConfusion h
  | some c =>
    simp only [hs] at h
    cases hz : unwrapLocal c with
    | none => simp only [hz] at h; exact RunResult.noConfusion h
    | some z =>
      simp only [hz, RunResult.ok.injEq] at h
      subst h
      simp [addSecs]

/-- Witness for C7 at the concrete input `"1970-01-01 00:00"` (the
input of the module's own unit test). -/
theorem c7_witness :
    ((⟨-3600, 3600⟩, ⟨0, 3600⟩) : ZonedDT × ZonedDT).2.utc -
      ((⟨-3600, 3600⟩, ⟨0, 3600⟩) : ZonedDT × ZonedDT).1.utc = 3600 :=
  c7_default_end_one_hour "1970-01-01 00:00" _ (by decide)

/-- C8: round trip.  For a well-formed civil string whose value exists
uniquely in the configured zone, the UTC instant of the normalized
start carries the offset the zone assigns that instant, and adding that
offset back to the UTC instant recovers the original civil value (on
the local-seconds scale, which encodes the civil fields uniquely).
Formatting the instant as `YYYYMMDDTHHMMSSZ` and reparsing is the
identity on the instant, so this is the claimed round trip. -/
theorem c8_roundtrip (s : String) (c : CivilDT) (p : ZonedDT × ZonedDT)
    (hc : parseNaive s = some c)
    (hp : parse_start_and_end_date s none = .ok p) :
    berlinOffsetFromUtc p.1.utc = p.1.offset ∧
      p.1.utc + berlinOffsetFromUtc p.1.utc = civilSecs c := by
  unfold parse_start_and_end_date at hp
  simp only [hc] at hp
  cases hz : unwrapLocal c with
  | none => simp only [hz] at hp; exact RunResult.noConfusion hp
  | some z =>
    simp only [hz, RunResult.ok.injEq] at hp
    subst hp
    unfold unwrapLocal resolveLocal at hz
    by_cases h1 : berlinOffsetFromUtc (civilSecs c - 3600) = 3600 <;>
      by_cases h2 : berlinOffsetFromUtc (civilSecs c - 7200) = 7200 <;>
      simp only [h1, h2, if_true, if_false, ite_true, ite_false,
        Option.some.injEq, reduceCtorEq] at hz
    · subst hz; constructor <;> simp [h1]
    · subst hz; constructor <;> simp [h2]

/-- C10: date normalization is deterministic — its embedding is a pure
function of the two arguments and the compile-time zone constant, and
it ignores the ambient environment (process clock) entirely, so two
evaluations in any two environments return identical results. -/
theorem c10_deterministic (env1 env2 : Env) (s : String)
    (endOpt : Option String) :
    parseInEnv env1 s endOpt = parseInEnv env2 s endOpt := rfl

/-- Witness for C8 at the concrete input `"1970-01-01 00:00"`: the
normalized start instant is 1969-12-31T23:00:00Z with offset +01:00,
and shifting it by the zone offset recovers the civil value. -/
theorem c8_witness :
    berlinOffsetFromUtc ((⟨-3600, 3600⟩ : ZonedDT).utc) =
        (⟨-3600, 3600⟩ : ZonedDT).offset ∧
      (⟨-3600, 3600⟩ : ZonedDT).utc +
          berlinOffsetFromUtc ((⟨-3600, 3600⟩ : ZonedDT).utc) =
        civilSecs ⟨1970, 1, 1, 0, 0⟩ := by
  have h := c8_roundtrip "1970-01-01 00:00" ⟨1970, 1, 1, 0, 0⟩
    (⟨-3600, 3600⟩, ⟨0, 3600⟩) (by decide) (by decide)
  exact h

/-- C1 (amended): date normalization aborts abnormally (the
`LocalResult::unwrap` panic) exactly when a successfully parsed civil
value is ambiguous or non-existent in the configured zone — for the
start value with any end argument, and for the end value once the start
value parsed and resolved uniquely.  It neither picks the earlier
offset for an ambiguous time nor returns an error for a DST gap. -/
theorem c1_amended (s : String) (endOpt : Option String) :
    parse_start_and_end_date s endOpt = .panicked ↔
      ((∃ c, parseNaive s = some c ∧ unwrapLocal c = none) ∨
       (∃ c z t c2, parseNaive s = some c ∧ unwrapLocal c = some z ∧
          endOpt = some t ∧ parseNaive t = some c2 ∧
          unwrapLocal c2 = none)) := by
  unfold parse_start_and_end_date
  cases hs : parseNaive s with
  | none => simp [hs]
  | some c =>
    cases hz : unwrapLocal c with
    | none => simp [hs, hz]
    | some z =>
      cases endOpt with
      | none => simp [hs, hz]
      | some t =>
        cases ht : parseNaive t with
        | none => simp [hs, hz, ht]
        | some c2 =>
          cases hz2 : unwrapLocal c2 with
          | none => simp [hs, hz, ht, hz2]
          | some z2 => simp [hs, hz, ht, hz2]

/-- C1 counterexample at concrete inputs, refuting the claimed
behavior on both sides: `2024-10-27 02:30` is ambiguous in the zone
(the clock falls back that morning), and normalization panics instead
of resolving it to the earlier UTC offset; `2024-03-31 02:30` falls in
the DST gap, and normalization panics instead of failing with a zone
error. -/
theorem c1_counterexample :
    parse_start_and_end_date "2024-10-27 02:30" none = .panicked ∧
    resolveLocal (civilSecs ⟨2024, 10, 27, 2, 30⟩) = .ambiguous 7200 3600 ∧
    parse_start_and_end_date "2024-03-31 02:30" none = .panicked ∧
    resolveLocal (civilSecs ⟨2024, 3, 31, 2, 30⟩) = .allGapNone := by
  refine ⟨by decide, by decide, by decide, by decide⟩

/-- Spec-side definition, following the words of the spec for the
refutation of C2: the exact grammar `YYYY-MM-DD HH:MM` — four year
digits, zero-padded two-digit month, day, hour and minute, one single
space separator, no extra characters or whitespace — together with the
calendar validity and 24-hour-clock bounds of the spec (the leap day
`2024-02-29 00:00` is accepted). -/
def matchesSpecGrammar (s : String) : Bool :=
  match s.data with
  | [y1, y2, y3, y4, '-', m1, m2, '-', d1, d2, ' ', h1, h2, ':', n1, n2] =>
    y1.isDigit && y2.isDigit && y3.isDigit && y4.isDigit &&
    m1.isDigit && m2.isDigit && d1.isDigit && d2.isDigit &&
    h1.isDigit && h2.isDigit && n1.isDigit && n2.isDigit &&
    validDate (digitsVal [y1, y2, y3, y4] : Int)
      (digitsVal [m1, m2]) (digitsVal [d1, d2]) &&
    digitsVal [h1, h2] ≤ 23 && digitsVal [n1, n2] ≤ 59
  | _ => false

/-- C2 (amended): normalization fails with the start parse error
exactly when the start string fails the chrono parse, which is laxer
than the exact `YYYY-MM-DD HH:MM` shape: month, day, hour and minute
accept unpadded 1- or 2-digit values, the year 1-4 digits (or any
number with an explicit sign), whitespace may precede every numeric
field, and the space separator may be any amount of whitespace
including none; calendar validity and the 24-hour clock are still
enforced and the empty string is still rejected.  It fails with the end
parse error exactly when the start string parses and resolves and a
present end string fails that same parse. -/
theorem c2_amended (s : String) (endOpt : Option String) :
    (parse_start_and_end_date s endOpt = .failed .startTime ↔
      parseNaive s = none) ∧
    (parse_start_and_end_date s endOpt = .failed .endTime ↔
      (∃ c, parseNaive s = some c ∧ (unwrapLocal c).isSome = true) ∧
      ∃ t, endOpt = some t ∧ parseNaive t = none) := by
  unfold parse_start_and_end_date
  cases hs : parseNaive s with
  | none => simp [hs]
  | some c =>
    cases hz : unwrapLocal c with
    | none => simp [hs, hz]
    | some z =>
      cases endOpt with
      | none => simp [hs, hz]
      | some t =>
        cases ht : parseNaive t with
        | none => simp [hs, hz, ht]
        | some c2 =>
          cases hz2 : unwrapLocal c2 with
          | none => simp [hs, hz, ht, hz2]
          | some z2 => simp [hs, hz, ht, hz2]

/-- C2 counterexample: `"1970-1-1 0:0"` deviates from the exact
`YYYY-MM-DD HH:MM` shape (no zero padding), so the claim requires a
start parse error, yet normalization accepts it — chrono parses
unpadded fields. -/
theorem c2_counterexample :
    matchesSpecGrammar "1970-1-1 0:0" = false ∧
    parse_start_and_end_date "1970-1-1 0:0" none =
      .ok (⟨-3600, 3600⟩, ⟨0, 3600⟩) := by
  refine ⟨by decide, by decide⟩

/-- A serialized property line cannot be the `BEGIN:VEVENT` delimiter
when its key does not start with `B`. -/
theorem propLine_ne_begin (p : IcsProp) (c : Char)
    (hk : p.key.data.head? = some c) (hc : c ≠ 'B') :
    propLine p ≠ "BEGIN:VEVENT" := by
  intro h
  have hd : (p.key ++ ":" ++ p.value).data = "BEGIN:VEVENT".data :=
    congrArg String.data h
  rw [string_data_append, string_data_append] at hd
  cases hk2 : p.key.data with
  | nil => rw [hk2] at hk; cases hk
  | cons a t =>
    rw [hk2] at hk hd
    have hk3 : some a = some c := hk
    injection hk3 with hk4
    rw [List.cons_append, List.cons_append] at hd
    have hd2 : a :: (t ++ ":".data ++ p.value.data) =
        'B' :: "EGIN:VEVENT".data := hd
    injection hd2 with h1 _
    exact hc (hk4 ▸ h1)

/-- Every property key an encoded `VEVENT` carries. -/
theorem eventToIcs_keys (now : Int) (ev : PlatformEvent) :
    ∀ p ∈ (eventToIcs now ev).properties,
      p.key ∈ (["UID", "DTSTAMP", "SUMMARY", "DESCRIPTION", "LOCATION",
        "DTSTART", "DTEND"] : List String) := by
  rw [eventToIcs_properties]
  refine List.forall_mem_append.mpr
    ⟨List.forall_mem_append.mpr
      ⟨List.forall_mem_append.mpr ⟨?_, ?_⟩, ?_⟩, ?_⟩
  · intro p hp; fin_cases hp <;> simp
  · cases ev.description with
    | none => intro p hp; cases hp
    | some d => intro p hp; fin_cases hp; simp
  · cases ev.metadata.bind EventMetadata.location with
    | none => intro p hp; cases hp
    | some l => intro p hp; fin_cases hp; simp
  · intro p hp; fin_cases hp <;> simp

/-- The serialized lines of one encoded `VEVENT` contain the
`BEGIN:VEVENT` delimiter exactly once. -/
theorem count_eventLines_one (now : Int) (ev : PlatformEvent) :
    (eventLines (eventToIcs now ev)).count "BEGIN:VEVENT" = 1 := by
  rw [eventLines, List.count_cons_self]
  have hzero :
      ((eventToIcs now ev).properties.map propLine ++
        ["END:VEVENT"]).count "BEGIN:VEVENT" = 0 := by
    rw [List.count_eq_zero]
    intro hmem
    rcases List.mem_append.mp hmem with hmem | hmem
    · obtain ⟨p, hp, hline⟩ := List.mem_map.mp hmem
      have hkey := eventToIcs_keys now ev p hp
      simp only [List.mem_cons, List.not_mem_nil, or_false] at hkey
      rcases hkey with hk | hk | hk | hk | hk | hk | hk
      · exact propLine_ne_begin p 'U' (by rw [hk]; rfl) (by decide) hline
      · exact propLine_ne_begin p 'D' (by rw [hk]; rfl) (by decide) hline
      · exact propLine_ne_begin p 'S' (by rw [hk]; rfl) (by decide) hline
      · exact propLine_ne_begin p 'D' (by rw [hk]; rfl) (by decide) hline
      · exact propLine_ne_begin p 'L' (by rw [hk]; rfl) (by decide) hline
      · exact propLine_ne_begin p 'D' (by rw [hk]; rfl) (by decide) hline
      · exact propLine_ne_begin p 'D' (by rw [hk]; rfl) (by decide) hline
    · exact absurd hmem (by decide)
  omega

/-- The flattened event blocks of the export hold one `BEGIN:VEVENT`
line per source event. -/
theorem count_flatten_events (now : Int) :
    ∀ evs : List PlatformEvent,
      (((evs.map (eventToIcs now)).map eventLines).flatten).count
        "BEGIN:VEVENT" = evs.length
  | [] => rfl
  | ev :: rest => by
    simp only [List.map_cons, List.flatten_cons, List.count_append,
      count_eventLines_one, count_flatten_events now rest, List.length_cons]
    omega

/-- The event loop never touches the version and product identifier
written by `ICalendar::new`. -/
theorem addAllEvents_const (now : Int) :
    ∀ (evs : List PlatformEvent) (cal : ICalendar),
      (addAllEvents now cal evs).version = cal.version ∧
        (addAllEvents now cal evs).prodid = cal.prodid
  | [], _ => ⟨rfl, rfl⟩
  | _ :: rest, cal => addAllEvents_const now rest (cal.addEvent _)

/-- C4: the encoded calendar document contains exactly one
`BEGIN:VEVENT` delimiter line per input event — `len(events)` blocks,
zero for the empty sequence — and its component list is exactly the
per-event encoding of the source sequence in source order, so no
sorting happens and duplicate uid values pass through undeduplicated. -/
theorem c4_one_vevent_per_event (now : Int) (events : List PlatformEvent) :
    (calendarLines (exportCalendar now events)).count "BEGIN:VEVENT" =
        events.length ∧
      (exportCalendar now events).events = events.map (eventToIcs now) := by
  refine ⟨?_, exportCalendar_events now events⟩
  rw [calendarLines]
  unfold exportCalendar
  rw [(addAllEvents_const now events _).1,
    (addAllEvents_const now events _).2, addAllEvents_events now events,
    List.nil_append]
  rw [List.count_cons_of_ne (by decide), List.count_cons_of_ne (by decide),
    List.count_cons_of_ne (by decide), List.count_append,
    count_flatten_events now events]
  rw [show (["END:VCALENDAR"] : List String).count "BEGIN:VEVENT" = 0 from
    by decide]
  omega

/-- C3 counterexample: a platform event with start instant 7200 and
present end instant 3600 is encoded with `DTSTART:19700101T020000Z`
and `DTEND:19700101T010000Z` — the serialized `DTEND` instant lies
strictly before the serialized `DTSTART` instant, refuting the claimed
`DTEND ≥ DTSTART` for every emitted entry: the code passes a present
platform end time through unchanged and enforces no ordering. -/
theorem c3_counterexample :
    (⟨"DTSTART", "19700101T020000Z"⟩ : IcsProp) ∈
        (eventToIcs 0 ⟨9, "Y", none, none, 7200, some 3600⟩).properties ∧
      (⟨"DTEND", "19700101T010000Z"⟩ : IcsProp) ∈
        (eventToIcs 0 ⟨9, "Y", none, none, 7200, some 3600⟩).properties ∧
      icsFormat (dtendInstant ⟨9, "Y", none, none, 7200, some 3600⟩) =
          "19700101T010000Z" ∧
      dtendInstant ⟨9, "Y", none, none, 7200, some 3600⟩ < 7200 := by
  refine ⟨by decide, by decide, by decide, by decide⟩

/-- C3 (amended): for every emitted calendar entry, `DTSTART`
serializes the source start instant and `DTEND` the instant
`dtendInstant`; when the platform event has no end time that instant is
the start plus one hour, so `DTEND` is strictly greater than `DTSTART`,
and when an end time is present it is passed through unchanged with no
ordering enforced, so `DTEND ≥ DTSTART` holds exactly when it holds of
the source record. -/
theorem c3_dtend_policy (now : Int) (events : List PlatformEvent) :
    ∀ ics ∈ (exportCalendar now events).events, ∃ ev ∈ events,
      ics = eventToIcs now ev ∧
      (⟨"DTSTART", icsFormat ev.start_time⟩ : IcsProp) ∈ ics.properties ∧
      (⟨"DTEND", icsFormat (dtendInstant ev)⟩ : IcsProp) ∈ ics.properties ∧
      (ev.end_time = none → ev.start_time < dtendInstant ev) ∧
      (∀ t, ev.end_time = some t → dtendInstant ev = t) := by
  intro ics hics
  rw [exportCalendar_events] at hics
  obtain ⟨ev, hev, rfl⟩ := List.mem_map.mp hics
  refine ⟨ev, hev, rfl, ?_, ?_, ?_, ?_⟩
  · rw [eventToIcs_properties]; simp
  · rw [eventToIcs_properties]; simp
  · intro het; simp only [dtendInstant, het]; omega
  · intro t het; simp only [dtendInstant, het]

/-- Witness for C3: a single event with start 3600 and no end time, at
its encoded entry. -/
theorem c3_witness :
    ∃ ev ∈ ([⟨7, "W", none, none, 3600, none⟩] : List PlatformEvent),
      eventToIcs 0 ⟨7, "W", none, none, 3600, none⟩ = eventToIcs 0 ev ∧
        (⟨"DTSTART", icsFormat ev.start_time⟩ : IcsProp) ∈
          (eventToIcs 0 ⟨7, "W", none, none, 3600, none⟩).properties ∧
        (⟨"DTEND", icsFormat (dtendInstant ev)⟩ : IcsProp) ∈
          (eventToIcs 0 ⟨7, "W", none, none, 3600, none⟩).properties ∧
        (ev.end_time = none → ev.start_time < dtendInstant ev) ∧
        (∀ t, ev.end_time = some t → dtendInstant ev = t) :=
  c3_dtend_policy 0 [⟨7, "W", none, none, 3600, none⟩]
    (eventToIcs 0 ⟨7, "W", none, none, 3600, none⟩) (by decide)

/-- C5: every encoded `VEVENT` carries a `UID`, `DTSTAMP`, `SUMMARY`,
`DTSTART` and `DTEND` property, carries a `DESCRIPTION` property
exactly when the source event has a description, and carries a
`LOCATION` property exactly when the source metadata carries a
location. -/
theorem c5_required_properties (now : Int) (ev : PlatformEvent) :
    (∃ v, (⟨"UID", v⟩ : IcsProp) ∈ (eventToIcs now ev).properties) ∧
    (∃ v, (⟨"DTSTAMP", v⟩ : IcsProp) ∈ (eventToIcs now ev).properties) ∧
    (∃ v, (⟨"SUMMARY", v⟩ : IcsProp) ∈ (eventToIcs now ev).properties) ∧
    (∃ v, (⟨"DTSTART", v⟩ : IcsProp) ∈ (eventToIcs now ev).properties) ∧
    (∃ v, (⟨"DTEND", v⟩ : IcsProp) ∈ (eventToIcs now ev).properties) ∧
    ((∃ v, (⟨"DESCRIPTION", v⟩ : IcsProp) ∈ (eventToIcs now ev).properties)
      ↔ ev.description.isSome = true) ∧
    ((∃ v, (⟨"LOCATION", v⟩ : IcsProp) ∈ (eventToIcs now ev).properties)
      ↔ (ev.metadata.bind EventMetadata.location).isSome = true) := by
  simp only [eventToIcs_properties]
  rcases hdesc : ev.description with _ | d <;>
    rcases hloc : ev.metadata.bind EventMetadata.location with _ | l <;>
    simp [hdesc, hloc]

/-- C6: `DTSTART` serializes the event start instant and `DTEND` the
end instant (defaulting to start plus one hour) through `icsFormat`,
the compact UTC basic format `YYYYMMDDTHHMMSSZ`; at the spec's concrete
input — start 2024-06-01T10:00:00Z (epoch 1717236000), no end time —
the rendered document contains the lines `DTSTART:20240601T100000Z`
and `DTEND:20240601T110000Z`. -/
theorem c6_utc_basic_format :
    (∀ (now : Int) (ev : PlatformEvent),
        (⟨"DTSTART", icsFormat ev.start_time⟩ : IcsProp) ∈
            (eventToIcs now ev).properties ∧
          (⟨"DTEND", icsFormat (dtendInstant ev)⟩ : IcsProp) ∈
            (eventToIcs now ev).properties) ∧
      icsFormat 1717236000 = "20240601T100000Z" ∧
      icsFormat (1717236000 + 3600) = "20240601T110000Z" ∧
      strContainsSub
          (renderCalendar (exportCalendar 0
            [⟨42, "X", none, none, 1717236000, none⟩]))
          "DTSTART:20240601T100000Z" = true ∧
      strContainsSub
          (renderCalendar (exportCalendar 0
            [⟨42, "X", none, none, 1717236000, none⟩]))
          "DTEND:20240601T110000Z" = true := by
  refine ⟨fun now ev => ⟨?_, ?_⟩, by decide, by decide, by decide, by decide⟩
  · rw [eventToIcs_properties]; simp
  · rw [eventToIcs_properties]; simp

/-- Spec-side definition, following the words of the spec for the
refutation of C9: the announcement template
`[<name>](<event_url>/<guild_id>/<event_id>) mit <author_mention>`
instantiated literally, with a slash character between `<event_url>`
and `<guild_id>` and `<event_url>` the constant
`https://discord.com/events/`. -/
def specAnnouncementTemplate (name : String) (guild_id event_id : Nat)
    (author : String) : String :=
  "[" ++ name ++ "](" ++ EVENT_URL ++ "/" ++ toString guild_id ++ "/" ++
    toString event_id ++ ") mit " ++ author

/-- C9 counterexample: at name `X`, guild 1, event 2, author `<@3>`,
the code produces `[X](https://discord.com/events/1/2) mit <@3>`,
while the claim's template, instantiated literally with its slash after
`<event_url>`, yields a double slash
(`https://discord.com/events//1/2`): the two strings differ. -/
theorem c9_counterexample :
    announcement "X" 1 2 "<@3>" ≠ specAnnouncementTemplate "X" 1 2 "<@3>" :=
  by decide

/-- C9 (amended): the announcement equals
`[<name>](<event_url><guild_id>/<event_id>) mit <author_mention>` —
the separator after `<event_url>` is supplied by the trailing slash of
the constant `https://discord.com/events/` itself, not by an extra
template character; the literal word `mit` separates the link from the
mention. -/
theorem c9_amended (name : String) (g i : Nat) (author : String) :
    announcement name g i author =
      "[" ++ name ++ "](" ++ EVENT_URL ++ toString g ++ "/" ++ toString i ++
        ") mit " ++ author := by
  simp [announcement, runFormat, EVENT_URL]
